import Mathlib

/-
Verification development for the lykmapipo/http-client repository.

The repository is a thin convenience layer over axios.  Its logic is pure
field shuffling over JavaScript objects, so we shallowly embed the relevant
fragment of JavaScript values (undefined, null, booleans, numbers, strings,
plain objects as association lists, and FormData instances) and translate
each source function (src/src/utils.js and the index module holding the
shortcut verbs) into a Lean function over that embedding.  Promises are
embedded as a sum of a resolved and a rejected value, and the axios client
is a transport parameter from normalized request options to such a promise.
-/

namespace HttpClient

/-- JSValue is the universe of JavaScript values the library manipulates:
undefined, null, booleans, numbers (integers suffice: the library only
handles status codes), strings, plain objects as ordered association lists,
and FormData instances carrying their appended entries. -/
inductive JSValue : Type where
  | undef : JSValue
  | nul : JSValue
  | boolV : Bool → JSValue
  | numV : Int → JSValue
  | strV : String → JSValue
  | obj : List (String × JSValue) → JSValue
  | formData : List (String × JSValue) → JSValue
deriving Repr

namespace JSValue

mutual

/-- beq is boolean equality of embedded JavaScript values. -/
def beq : JSValue → JSValue → Bool
  | .undef, .undef => true
  | .nul, .nul => true
  | .boolV a, .boolV b => a == b
  | .numV a, .numV b => a == b
  | .strV a, .strV b => a == b
  | .obj fs, .obj gs => beqFields fs gs
  | .formData fs, .formData gs => beqFields fs gs
  | _, _ => false

/-- beqFields is boolean equality of field lists. -/
def beqFields : List (String × JSValue) → List (String × JSValue) → Bool
  | [], [] => true
  | (k, v) :: fs, (l, w) :: gs => k == l && beq v w && beqFields fs gs
  | _, _ => false

end

mutual

/-- beq decides propositional equality of embedded values. -/
theorem beq_iff : ∀ (a b : JSValue), beq a b = true ↔ a = b
  | .undef, .undef => by simp [beq]
  | .undef, .nul => by simp [beq]
  | .undef, .boolV _ => by simp [beq]
  | .undef, .numV _ => by simp [beq]
  | .undef, .strV _ => by simp [beq]
  | .undef, .obj _ => by simp [beq]
  | .undef, .formData _ => by simp [beq]
  | .nul, .undef => by simp [beq]
  | .nul, .nul => by simp [beq]
  | .nul, .boolV _ => by simp [beq]
  | .nul, .numV _ => by simp [beq]
  | .nul, .strV _ => by simp [beq]
  | .nul, .obj _ => by simp [beq]
  | .nul, .formData _ => by simp [beq]
  | .boolV _, .undef => by simp [beq]
  | .boolV _, .nul => by simp [beq]
  | .boolV a, .boolV b => by simp [beq]
  | .boolV _, .numV _ => by simp [beq]
  | .boolV _, .strV _ => by simp [beq]
  | .boolV _, .obj _ => by simp [beq]
  | .boolV _, .formData _ => by simp [beq]
  | .numV _, .undef => by simp [beq]
  | .numV _, .nul => by simp [beq]
  | .numV _, .boolV _ => by simp [beq]
  | .numV a, .numV b => by simp [beq]
  | .numV _, .strV _ => by simp [beq]
  | .numV _, .obj _ => by simp [beq]
  | .numV _, .formData _ => by simp [beq]
  | .strV _, .undef => by simp [beq]
  | .strV _, .nul => by simp [beq]
  | .strV _, .boolV _ => by simp [beq]
  | .strV _, .numV _ => by simp [beq]
  | .strV a, .strV b => by simp [beq]
  | .strV _, .obj _ => by simp [beq]
  | .strV _, .formData _ => by simp [beq]
  | .obj _, .undef => by simp [beq]
  | .obj _, .nul => by simp [beq]
  | .obj _, .boolV _ => by simp [beq]
  | .obj _, .numV _ => by simp [beq]
  | .obj _, .strV _ => by simp [beq]
  | .obj fs, .obj gs => by simp [beq, beqFields_iff fs gs]
  | .obj _, .formData _ => by simp [beq]
  | .formData _, .undef => by simp [beq]
  | .formData _, .nul => by simp [beq]
  | .formData _, .boolV _ => by simp [beq]
  | .formData _, .numV _ => by simp [beq]
  | .formData _, .strV _ => by simp [beq]
  | .formData _, .obj _ => by simp [beq]
  | .formData fs, .formData gs => by simp [beq, beqFields_iff fs gs]

/-- beqFields decides propositional equality of field lists. -/
theorem beqFields_iff : ∀ (fs gs : List (String × JSValue)),
    beqFields fs gs = true ↔ fs = gs
  | [], [] => by simp [beqFields]
  | [], _ :: _ => by simp [beqFields]
  | _ :: _, [] => by simp [beqFields]
  | (k, v) :: fs, (l, w) :: gs => by
    simp [beqFields, beq_iff v w, beqFields_iff fs gs, and_assoc]

end

instance : DecidableEq JSValue := fun a b =>
  decidable_of_iff (beq a b = true) (beq_iff a b)



/-- truthy mirrors JavaScript truthiness: undefined, null, false, 0 and the
empty string are falsy; every object (FormData included) is truthy. -/
def truthy : JSValue → Bool
  | .undef => false
  | .nul => false
  | .boolV b => b
  | .numV n => n != 0
  | .strV s => s != ""
  | .obj _ => true
  | .formData _ => true

/-- jsOr models the JavaScript expression a || b. -/
def jsOr (a b : JSValue) : JSValue :=
  if a.truthy then a else b

/-- hasKey tells whether an association list carries the given key. -/
def hasKey (fs : List (String × JSValue)) (k : String) : Bool :=
  fs.any (fun kv => kv.1 = k)

/-- lookupField returns the first binding of the key, mirroring property
lookup on an object whose keys are unique. -/
def lookupField : List (String × JSValue) → String → Option JSValue
  | [], _ => none
  | (k', v) :: rest, k => if k' = k then some v else lookupField rest k

/-- setKey models property assignment: an existing key keeps its position
and gets the new value, a fresh key is appended (JavaScript insertion
order). -/
def setKey : List (String × JSValue) → String → JSValue → List (String × JSValue)
  | [], k, v => [(k, v)]
  | (k', w) :: rest, k, v =>
    if k' = k then (k, v) :: rest else (k', w) :: setKey rest k v

/-- getField models reading a property: objects look the key up, every
other value yields undefined (the library never reads properties of
primitives on relevant paths). -/
def getField : JSValue → String → JSValue
  | .obj fs, k => (lookupField fs k).getD undef
  | _, _ => undef

/-- setField models property assignment on a value: a no-op on
non-objects (sloppy-mode JavaScript silently ignores it). -/
def setField : JSValue → String → JSValue → JSValue
  | .obj fs, k, v => .obj (setKey fs k v)
  | v, _, _ => v

/-- removeField models the delete operator / lodash omit of one key. -/
def removeField : JSValue → String → JSValue
  | .obj fs, k => .obj (fs.filter (fun kv => kv.1 ≠ k))
  | v, _ => v

/-- spreadEntries lists the own enumerable entries contributed by spreading
a value into an object literal: objects contribute their fields, strings
contribute their indexed characters, everything else contributes nothing
(FormData internals are opaque and never spread on a claim-relevant path). -/
def spreadEntries : JSValue → List (String × JSValue)
  | .obj fs => fs
  | .strV s => (s.data.enum).map (fun p => (toString p.1, strV (String.singleton p.2)))
  | _ => []

/-- spreadInto folds the spread entries of a value onto a base field list,
later entries overriding earlier ones as in an object literal. -/
def spreadInto (base : List (String × JSValue)) (v : JSValue) :
    List (String × JSValue) :=
  (spreadEntries v).foldl (fun acc kv => setKey acc kv.1 kv.2) base

/-- destrDefault models a destructuring default: it applies exactly when
the read value is undefined. -/
def destrDefault (v d : JSValue) : JSValue :=
  match v with
  | .undef => d
  | v => v

/-- jsIsEmpty models lodash isEmpty: nullish values, booleans and numbers
are empty, strings and plain objects are empty when they have no
characters or fields, and a FormData instance is never empty (the
form-data package stores bookkeeping state in own enumerable
properties). -/
def jsIsEmpty : JSValue → Bool
  | .undef => true
  | .nul => true
  | .boolV _ => true
  | .numV _ => true
  | .strV s => s = ""
  | .obj fs => fs.isEmpty
  | .formData _ => false

/-- isValue models the helper of the same name from the common package:
booleans and numbers always count as values, anything else counts exactly
when lodash isEmpty rejects it. -/
def isValue : JSValue → Bool
  | .boolV _ => true
  | .numV _ => true
  | v => !jsIsEmpty v

/-- isFormData mirrors src/src/utils.js: an instanceof test against the
FormData constructor. -/
def isFormData : JSValue → Bool
  | .formData _ => true
  | _ => false

/-- lowerChar lowercases an ASCII letter, leaving other characters alone. -/
def lowerChar (c : Char) : Char :=
  if c.toNat ≥ 65 ∧ c.toNat ≤ 90 then Char.ofNat (c.toNat + 32) else c

/-- jsToLowerString models lodash toLower of an arbitrary value: the value
is coerced to a string (nullish values become the empty string) and
lowercased. -/
def jsToLowerString : JSValue → String
  | .strV s => String.mk (s.data.map lowerChar)
  | .undef => ""
  | .nul => ""
  | .boolV b => if b then "true" else "false"
  | .numV n => String.mk (toString n).data
  | .obj _ => "[object object]"
  | .formData _ => "[object formdata]"

/-- strStarts tests whether the first string starts with the second. -/
def strStarts (s p : String) : Bool :=
  p.data.isPrefixOf s.data

mutual

/-- mergeInto models the deep merge of the common package (lodash merge of
a source object into a target, with undefined and null source values
ignored, as the package documents): non-object sources contribute
nothing. -/
def mergeInto (a b : JSValue) : JSValue :=
  match a, b with
  | .obj fa, .obj fb => .obj (mergeFields fa fb)
  | a, _ => a

/-- mergeEntry merges one source field into the target fields: undefined
and null source values are skipped, two plain objects merge recursively,
and any other source value overwrites the target value. -/
def mergeEntry (fa : List (String × JSValue)) (k : String) (v : JSValue) :
    List (String × JSValue) :=
  match v with
  | .undef => fa
  | .nul => fa
  | .obj gb =>
    match lookupField fa k with
    | some (.obj ga) => setKey fa k (.obj (mergeFields ga gb))
    | _ => setKey fa k (.obj gb)
  | v => setKey fa k v

/-- mergeFields merges source fields into target fields one by one. -/
def mergeFields (fa fb : List (String × JSValue)) : List (String × JSValue) :=
  match fb with
  | [] => fa
  | (k, v) :: rest => mergeFields (mergeEntry fa k v) rest

end

/-- mergeObjects models mergeObjects of the common package on two
arguments: both sources are deep-merged into a fresh object. -/
def mergeObjects (a b : JSValue) : JSValue :=
  mergeInto (mergeInto (.obj []) a) b

/-- safeMergeObjects models safeMergeObjects of the common package on two
arguments; on the claim-relevant inputs it merges exactly like
mergeObjects (the difference in the package is only that instances are
not cloned), which the repository test suite pins down: defaults and
caller options deep-merge, with nested header objects merged key-wise and
the caller winning on conflicts. -/
def safeMergeObjects (a b : JSValue) : JSValue :=
  mergeInto (mergeInto (.obj []) a) b

end JSValue

open JSValue

/-- CONTENT_TYPE mirrors the constant of src/src/utils.js. -/
def CONTENT_TYPE : String := "application/json"

/-- RESPONSE_TYPE mirrors the constant of src/src/utils.js. -/
def RESPONSE_TYPE : String := "json"

/-- Env is the process environment fragment the library reads: the two
base-URL variables, each a string when set and undefined when unset
(getString of the env package yields undefined for an unset variable). -/
structure Env : Type where
  baseUrlVar : JSValue
  reactAppBaseUrlVar : JSValue

/-- defaultEntries is the default options object of withDefaults: the
environment base URL and the JSON Accept and Content-Type headers. -/
def defaultEntries (env : Env) : List (String × JSValue) :=
  [("baseURL", jsOr env.baseUrlVar env.reactAppBaseUrlVar),
   ("headers",
    .obj [("Accept", .strV CONTENT_TYPE), ("Content-Type", .strV CONTENT_TYPE)])]

/-- withDefaults mirrors src/src/utils.js: it safe-merges the defaults
(environment base URL, JSON Accept and Content-Type headers) with the
caller options, the caller winning. -/
def withDefaults (env : Env) (optns : JSValue) : JSValue :=
  safeMergeObjects (.obj (defaultEntries env)) optns

/-- toFormData mirrors src/src/utils.js: every entry of the given data
whose key and value are both truthy is appended to a fresh FormData
value (lodash forEach iterates object fields, and the characters of a
string with their numeric index, whose index 0 is falsy). -/
def toFormData (data : JSValue) : JSValue :=
  match data with
  | .obj fs => .formData (fs.filter (fun kv => kv.1 ≠ "" && truthy kv.2))
  | .strV s =>
    .formData
      (((s.data.enum).filter (fun p => p.1 ≠ 0)).map
        (fun p => (toString p.1, .strV (String.singleton p.2))))
  | _ => .formData []

/-- MULTIPART_HEADER stands for the content-type header value produced by
getHeaders of the form-data package; the real value carries a random
boundary, modelled here as a fixed one. -/
def MULTIPART_HEADER : String := "multipart/form-data; boundary=x"

/-- normalizeRequest mirrors src/src/utils.js: it detects multipart
payloads (explicit flag, multipart content-type header, or FormData
payload), converts plain data to FormData when needed, installs the
form-data content-type header, defaults the response type to json, and
writes the normalized headers, data and responseType back onto the
request. -/
def normalizeRequest (request : JSValue) : JSValue :=
  let responseType := destrDefault (getField request "responseType") (.strV RESPONSE_TYPE)
  let headers := destrDefault (getField request "headers") (.obj [])
  let data := destrDefault (getField request "data") (.obj [])
  let multipart := destrDefault (getField request "multipart") (.boolV false)
  let contentType := jsOr (getField headers "content-type") (getField headers "Content-Type")
  let multipartOn : Bool :=
    truthy multipart || strStarts (jsToLowerString contentType) "multipart" ||
      isFormData data
  let data := if multipartOn && !isFormData data then toFormData data else data
  let headers :=
    if isFormData data then
      mergeObjects
        (removeField (removeField headers "content-type") "Content-Type")
        (.obj [("content-type", .strV MULTIPART_HEADER)])
    else headers
  let responseType := if jsIsEmpty responseType then .strV RESPONSE_TYPE else responseType
  let request := setField request "headers" headers
  let request := setField request "data" (if isValue data then data else .undef)
  setField request "responseType" responseType

/-- mapResponseToData mirrors src/src/utils.js: it projects the data field
of a raw response. -/
def mapResponseToData (rawResponse : JSValue) : JSValue :=
  getField rawResponse "data"

/-- errorLiteral is the field list of the fresh Error (its stack already
written) extended by the named fields of the assigned object literal, in
source order, before the data spread lands on top. -/
def errorLiteral (code status message description errors stack : JSValue) :
    List (String × JSValue) :=
  setKey
    (setKey
      (setKey
        (setKey
          (setKey [("stack", stack)] "code" code)
          "status" status)
        "message" message)
      "description" description)
    "errors" errors

/-- buildError models the tail of mapResponseToError: a fresh Error whose
stack is set, onto which assign copies the literal with the named fields
followed by the spread of the effective data (the spread entries override
the named fields, as in any object literal). -/
def buildError (code status message description errors stack data : JSValue) : JSValue :=
  .obj (spreadInto (errorLiteral code status message description errors stack) data)

/-- mapResponseToError mirrors src/src/utils.js: a server response mirrors
the response status, code, message and payload; a request with no
response defaults to 503 Service Unavailable; anything else defaults to
400 Bad Request. -/
def mapResponseToError (rawResponse : JSValue) : JSValue :=
  let code := getField rawResponse "code"
  let status := getField rawResponse "status"
  let message := getField rawResponse "message"
  let description := getField rawResponse "description"
  let stack := getField rawResponse "stack"
  let errors := getField rawResponse "errors"
  let data := getField rawResponse "data"
  let request := getField rawResponse "request"
  let response := getField rawResponse "response"
  if truthy response then
    let code := jsOr (getField response "code") code
    let status := jsOr (getField response "status") status
    let data := jsOr (getField response "data") (jsOr data (.obj []))
    let message := jsOr (getField data "message") (jsOr (getField response "statusText") message)
    let description := jsOr description message
    let errors := jsOr (getField response "errors") (jsOr errors (.obj []))
    let stack := jsOr (getField response "stack") (jsOr (getField data "stack") stack)
    buildError code status message description errors stack data
  else if truthy request then
    let code := jsOr code (.numV 503)
    let status := jsOr status (.numV 503)
    let description := jsOr description (.strV "Service Unavailable")
    let message := jsOr message description
    buildError code status message description errors stack data
  else
    let code := jsOr code (.numV 400)
    let status := jsOr status (.numV 400)
    let description := jsOr description (.strV "Bad Request")
    let message := jsOr message description
    buildError code status message description errors stack data

/-- JSPromise embeds a settled promise: resolved with a value or rejected
with a reason. -/
inductive JSPromise : Type where
  | resolved : JSValue → JSPromise
  | rejected : JSValue → JSPromise
deriving DecidableEq, Repr

/-- wrapRequest mirrors src/src/utils.js: a resolved response is mapped to
its data (unless skipData is set), a rejected one to the normalized
error. -/
def wrapRequest (request : JSPromise) (skipData : Bool) : JSPromise :=
  match request with
  | .resolved response =>
    .resolved (if skipData then response else mapResponseToData response)
  | .rejected response => .rejected (mapResponseToError response)

/-- Transport is the behaviour of client.request of the underlying axios
client: normalized request options in, settled promise out. -/
def Transport : Type := JSValue → JSPromise

/-- HttpClientInstance embeds the axios client the index module keeps: the
options it was created from and the Date.now stamp stored on it. -/
structure HttpClientInstance : Type where
  clientOptions : JSValue
  stamp : Nat
deriving DecidableEq, Repr

/-- ClientState is the module-local httpClient binding: none embeds both
its initial undefined and the null written by disposeHttpClient. -/
def ClientState : Type := Option HttpClientInstance

/-- createHttpClient mirrors the index module: when no client exists one
is created from the merged options with baseURL omitted (to allow
multi-endpoint usage) and stamped with Date.now; an existing client is
returned as is, the freshly supplied options ignored. -/
def createHttpClient (env : Env) (now : Nat) (optns : JSValue) (st : ClientState) :
    HttpClientInstance × ClientState :=
  match st with
  | some c => (c, some c)
  | none =>
    let c : HttpClientInstance :=
      ⟨removeField (withDefaults env optns) "baseURL", now⟩
    (c, some c)

/-- disposeHttpClient mirrors the index module: the module-local client is
set to null and that null is returned. -/
def disposeHttpClient (_st : ClientState) : Option HttpClientInstance × ClientState :=
  (none, none)

/-- request mirrors the index module: the caller options are merged with
the defaults (so the baseURL rides on the per-request options), the
normalized options are handed to the client, and the issued request is
recorded so that theorems can speak about what reached the transport. -/
def request (env : Env) (transport : Transport) (optns : JSValue) :
    JSPromise × List JSValue :=
  let requestOptions := withDefaults env optns
  let normalized := normalizeRequest requestOptions
  (transport normalized, [normalized])

/-- verbOptions builds the literal with method and url spread with the
caller options, as every shortcut verb does. -/
def verbOptions (method : String) (url optns : JSValue) : JSValue :=
  .obj (spreadInto [("method", .strV method), ("url", url)] optns)

/-- bodyVerbOptions builds the literal with method, url and data spread
with the caller options, as every body-bearing shortcut verb does. -/
def bodyVerbOptions (method : String) (url data optns : JSValue) : JSValue :=
  .obj (spreadInto [("method", .strV method), ("url", url), ("data", data)] optns)

/-- missingPayloadError embeds new Error with the message
"Missing Payload" by its message own-property. -/
def missingPayloadError : JSValue :=
  .obj [("message", .strV "Missing Payload")]

/-- del mirrors the index module: a DELETE request wrapped to yield data. -/
def del (env : Env) (transport : Transport) (url optns : JSValue) :
    JSPromise × List JSValue :=
  let r := request env transport (verbOptions "DELETE" url optns)
  (wrapRequest r.1 false, r.2)

/-- get mirrors the index module: a GET request wrapped to yield data. -/
def get (env : Env) (transport : Transport) (url optns : JSValue) :
    JSPromise × List JSValue :=
  let r := request env transport (verbOptions "GET" url optns)
  (wrapRequest r.1 false, r.2)

/-- head mirrors the index module: a HEAD request wrapped with skipData,
yielding the raw response. -/
def head (env : Env) (transport : Transport) (url optns : JSValue) :
    JSPromise × List JSValue :=
  let r := request env transport (verbOptions "HEAD" url optns)
  (wrapRequest r.1 true, r.2)

/-- options mirrors the index module: an OPTIONS request wrapped with
skipData, yielding the raw response. -/
def options (env : Env) (transport : Transport) (url optns : JSValue) :
    JSPromise × List JSValue :=
  let r := request env transport (verbOptions "OPTIONS" url optns)
  (wrapRequest r.1 true, r.2)

/-- patch mirrors the index module: an empty payload rejects immediately
with a Missing Payload error and no request is issued; otherwise a PATCH
request is wrapped to yield data. -/
def patch (env : Env) (transport : Transport) (url data optns : JSValue) :
    JSPromise × List JSValue :=
  if jsIsEmpty data then (.rejected missingPayloadError, [])
  else
    let r := request env transport (bodyVerbOptions "PATCH" url data optns)
    (wrapRequest r.1 false, r.2)

/-- post mirrors the index module: an empty payload rejects immediately
with a Missing Payload error and no request is issued; otherwise a POST
request is wrapped to yield data. -/
def post (env : Env) (transport : Transport) (url data optns : JSValue) :
    JSPromise × List JSValue :=
  if jsIsEmpty data then (.rejected missingPayloadError, [])
  else
    let r := request env transport (bodyVerbOptions "POST" url data optns)
    (wrapRequest r.1 false, r.2)

/-- put mirrors the index module: an empty payload rejects immediately
with a Missing Payload error and no request is issued; otherwise a PUT
request is wrapped to yield data. -/
def put (env : Env) (transport : Transport) (url data optns : JSValue) :
    JSPromise × List JSValue :=
  if jsIsEmpty data then (.rejected missingPayloadError, [])
  else
    let r := request env transport (bodyVerbOptions "PUT" url data optns)
    (wrapRequest r.1 false, r.2)

/-- sendFile mirrors the index module: a falsy or empty payload rejects
immediately with a Missing Payload error and no request is issued;
otherwise the options gain multipart true and a POST request is wrapped
to yield data. -/
def sendFile (env : Env) (transport : Transport) (url data optns : JSValue) :
    JSPromise × List JSValue :=
  if !truthy data || jsIsEmpty data then (.rejected missingPayloadError, [])
  else
    let opts := mergeObjects optns (.obj [("multipart", .boolV true)])
    let r := request env transport (bodyVerbOptions "POST" url data opts)
    (wrapRequest r.1 false, r.2)

/-- isOverriding holds for the source values that a deep merge writes over
the target unconditionally: everything except undefined, null (both
skipped) and plain objects (merged recursively). -/
def isOverriding : JSValue → Bool
  | .undef => false
  | .nul => false
  | .obj _ => false
  | _ => true

/-- spreadHasKey tells whether spreading the value into an object literal
contributes an entry with the given key. -/
def spreadHasKey (v : JSValue) (k : String) : Bool :=
  JSValue.hasKey (JSValue.spreadEntries v) k

/-- objEntries projects the field list of a plain object and is empty on
every other value; mergeInto on an object target merges exactly these
entries. -/
def objEntries : JSValue → List (String × JSValue)
  | .obj fs => fs
  | _ => []

/-
General lemmas about the embedding.
-/

namespace JSValue

/-- truthy_ne_undef notes that a truthy value is not undefined. -/
theorem truthy_ne_undef {v : JSValue} (h : truthy v = true) : v ≠ .undef := by
  intro he
  subst he
  simp [truthy] at h

/-- hasKey_iff_mem characterizes hasKey by membership of the key among the
field names. -/
theorem hasKey_iff_mem {fs : List (String × JSValue)} {k : String} :
    hasKey fs k = true ↔ k ∈ fs.map Prod.fst := by
  simp [hasKey, List.any_eq_true, List.mem_map]

/-- lookupField_eq_none_of_not_hasKey notes that lookups of an absent key
fail. -/
theorem lookupField_eq_none_of_not_hasKey {fs : List (String × JSValue)}
    {k : String} (h : hasKey fs k = false) : lookupField fs k = none := by
  induction fs with
  | nil => rfl
  | cons kv rest ih =>
    simp only [hasKey, List.any_cons, Bool.or_eq_false_iff] at h
    cases kv with
    | mk k' v =>
      have h1 : k' ≠ k := by simpa using h.1
      simp only [lookupField, if_neg h1]
      exact ih (by simpa [hasKey] using h.2)

/-- lookupField_setKey_self evaluates a lookup right after a write of the
same key. -/
theorem lookupField_setKey_self (fs : List (String × JSValue)) (k : String)
    (v : JSValue) : lookupField (setKey fs k v) k = some v := by
  induction fs with
  | nil => simp [setKey, lookupField]
  | cons kv rest ih =>
    cases kv with
    | mk k' w =>
      by_cases h : k' = k
      · simp [setKey, if_pos h, lookupField]
      · simp [setKey, if_neg h, lookupField, h, ih]

/-- lookupField_setKey_ne evaluates a lookup after a write of a different
key. -/
theorem lookupField_setKey_ne {k k' : String} (h : k' ≠ k)
    (fs : List (String × JSValue)) (v : JSValue) :
    lookupField (setKey fs k' v) k = lookupField fs k := by
  induction fs with
  | nil => simp [setKey, lookupField, if_neg h]
  | cons kv rest ih =>
    cases kv with
    | mk k1 w =>
      by_cases h1 : k1 = k'
      · subst h1
        simp [setKey, lookupField, if_neg h]
      · by_cases h2 : k1 = k
        · simp [setKey, if_neg h1, lookupField, if_pos h2]
        · simp [setKey, if_neg h1, lookupField, if_neg h2, ih]

/-- lookupField_foldl_setKey_of_not_hasKey notes that folding writes whose
keys all differ from k leaves lookups of k unchanged. -/
theorem lookupField_foldl_setKey_of_not_hasKey
    (entries : List (String × JSValue)) (base : List (String × JSValue))
    (k : String) (h : hasKey entries k = false) :
    lookupField (entries.foldl (fun acc kv => setKey acc kv.1 kv.2) base) k =
      lookupField base k := by
  induction entries generalizing base with
  | nil => rfl
  | cons kv rest ih =>
    simp only [hasKey, List.any_cons, Bool.or_eq_false_iff] at h
    have h1 : kv.1 ≠ k := by simpa using h.1
    simp only [List.foldl_cons]
    rw [ih (setKey base kv.1 kv.2) (by simpa [hasKey] using h.2)]
    exact lookupField_setKey_ne h1 base kv.2

/-- lookupField_foldl_setKey_unique evaluates the fold of writes when the
key occurs exactly once among them: the written value shows up. -/
theorem lookupField_foldl_setKey_unique
    (entries : List (String × JSValue)) (base : List (String × JSValue))
    (k : String) (hk : hasKey entries k = true)
    (hu : entries.countP (fun kv => kv.1 = k) ≤ 1) :
    lookupField (entries.foldl (fun acc kv => setKey acc kv.1 kv.2) base) k =
      lookupField entries k := by
  induction entries generalizing base with
  | nil => cases hk
  | cons kv rest ih =>
    by_cases h1 : kv.1 = k
    · have hc : rest.countP (fun kv => kv.1 = k) = 0 := by
        rw [List.countP_cons_of_pos _ _ (by simpa using h1)] at hu
        omega
      have hnk : hasKey rest k = false := by
        rw [Bool.eq_false_iff]
        intro hany
        simp only [hasKey, List.any_eq_true] at hany
        obtain ⟨x, hx, hpx⟩ := hany
        have := List.countP_eq_zero.mp hc x hx
        exact this hpx
      simp only [List.foldl_cons]
      rw [lookupField_foldl_setKey_of_not_hasKey rest _ k hnk]
      cases kv with
      | mk k1 v =>
        have : k1 = k := h1
        subst this
        simp [lookupField, lookupField_setKey_self]
    · have hk' : hasKey rest k = true := by
        simp only [hasKey, List.any_cons] at hk
        rcases Bool.or_eq_true_iff.mp hk with h | h
        · exact absurd (by simpa using h) h1
        · exact h
      have hu' : rest.countP (fun kv => kv.1 = k) ≤ 1 := by
        rw [List.countP_cons_of_neg _ _ (by simpa using h1)] at hu
        exact hu
      simp only [List.foldl_cons]
      rw [ih (setKey base kv.1 kv.2) hk' hu']
      cases kv with
      | mk k1 v => simp [lookupField, if_neg h1]

/-- lookupField_foldl_setKey_cases notes that after folding writes, the
lookup of k either comes from the base list or from one of the writes. -/
theorem lookupField_foldl_setKey_cases
    (entries : List (String × JSValue)) (base : List (String × JSValue))
    (k : String) :
    lookupField (entries.foldl (fun acc kv => setKey acc kv.1 kv.2) base) k =
        lookupField base k ∨
      ∃ v, (k, v) ∈ entries ∧
        lookupField (entries.foldl (fun acc kv => setKey acc kv.1 kv.2) base) k =
          some v := by
  induction entries generalizing base with
  | nil => exact Or.inl rfl
  | cons kv rest ih =>
    simp only [List.foldl_cons]
    rcases ih (setKey base kv.1 kv.2) with h | ⟨v, hv, he⟩
    · by_cases h1 : kv.1 = k
      · rcases kv with ⟨k1, v1⟩
        simp only at h1
        subst h1
        refine Or.inr ⟨v1, List.mem_cons_self _ _, ?_⟩
        rw [h]
        exact lookupField_setKey_self base k1 v1
      · rw [h, lookupField_setKey_ne h1 base kv.2]
        exact Or.inl rfl
    · exact Or.inr ⟨v, List.mem_cons_of_mem _ hv, he⟩

/-- lookupField_spreadInto_of_not_hasKey notes that spreading a value with
no entry for k preserves lookups of k. -/
theorem lookupField_spreadInto_of_not_hasKey
    {v : JSValue} {k : String} (h : spreadHasKey v k = false)
    (base : List (String × JSValue)) :
    lookupField (spreadInto base v) k = lookupField base k :=
  lookupField_foldl_setKey_of_not_hasKey (spreadEntries v) base k h

/-- lookupField_spreadInto_unique evaluates a spread that carries exactly
one entry for k. -/
theorem lookupField_spreadInto_unique
    {v : JSValue} {k : String} (hk : spreadHasKey v k = true)
    (hu : (spreadEntries v).countP (fun kv => kv.1 = k) ≤ 1)
    (base : List (String × JSValue)) :
    lookupField (spreadInto base v) k = lookupField (spreadEntries v) k :=
  lookupField_foldl_setKey_unique (spreadEntries v) base k hk hu

/-- getField_eq_undef_of_spreadHasKey_false notes that a value spreading no
entry for k also reads undefined at k. -/
theorem getField_eq_undef_of_spreadHasKey_false
    {v : JSValue} {k : String} (h : spreadHasKey v k = false) :
    getField v k = .undef := by
  cases v with
  | obj fs =>
    simp only [getField]
    rw [lookupField_eq_none_of_not_hasKey (by simpa [spreadHasKey, spreadEntries] using h)]
    rfl
  | undef => rfl
  | nul => rfl
  | boolV b => rfl
  | numV n => rfl
  | strV s => rfl
  | formData es => rfl

/-- lookupField_mergeEntry_ne notes that merging an entry with a different
key preserves lookups of k. -/
theorem lookupField_mergeEntry_ne {k k1 : String} (h : k1 ≠ k)
    (fa : List (String × JSValue)) (v : JSValue) :
    lookupField (mergeEntry fa k1 v) k = lookupField fa k := by
  cases v with
  | undef => rfl
  | nul => rfl
  | boolV b => exact lookupField_setKey_ne h fa _
  | numV n => exact lookupField_setKey_ne h fa _
  | strV s => exact lookupField_setKey_ne h fa _
  | formData es => exact lookupField_setKey_ne h fa _
  | obj gb =>
    simp only [mergeEntry]
    cases hl : lookupField fa k1 with
    | none => exact lookupField_setKey_ne h fa _
    | some w =>
      cases w with
      | obj ga => exact lookupField_setKey_ne h fa _
      | undef => exact lookupField_setKey_ne h fa _
      | nul => exact lookupField_setKey_ne h fa _
      | boolV b => exact lookupField_setKey_ne h fa _
      | numV n => exact lookupField_setKey_ne h fa _
      | strV s => exact lookupField_setKey_ne h fa _
      | formData es => exact lookupField_setKey_ne h fa _

/-- lookupField_mergeFields_of_not_hasKey notes that merging source fields
that never mention k preserves lookups of k. -/
theorem lookupField_mergeFields_of_not_hasKey
    {fb : List (String × JSValue)} {k : String} (h : hasKey fb k = false)
    (fa : List (String × JSValue)) :
    lookupField (mergeFields fa fb) k = lookupField fa k := by
  induction fb generalizing fa with
  | nil => rfl
  | cons kv rest ih =>
    simp only [hasKey, List.any_cons, Bool.or_eq_false_iff] at h
    have h1 : kv.1 ≠ k := by simpa using h.1
    simp only [mergeFields]
    rw [ih (by simpa [hasKey] using h.2) (mergeEntry fa kv.1 kv.2)]
    exact lookupField_mergeEntry_ne h1 fa kv.2

/-- lookupField_mergeFields_overriding evaluates a merge whose source
carries k exactly once, with a value that overwrites unconditionally. -/
theorem lookupField_mergeFields_overriding
    {fb : List (String × JSValue)} {k : String} {v : JSValue}
    (hl : lookupField fb k = some v)
    (hu : fb.countP (fun kv => kv.1 = k) ≤ 1)
    (hv : isOverriding v = true)
    (fa : List (String × JSValue)) :
    lookupField (mergeFields fa fb) k = some v := by
  induction fb generalizing fa with
  | nil => cases hl
  | cons kv rest ih =>
    rcases kv with ⟨k1, v1⟩
    by_cases h1 : k1 = k
    · subst h1
      rw [lookupField, if_pos rfl] at hl
      cases hl
      have hc : rest.countP (fun kv => kv.1 = k1) = 0 := by
        rw [List.countP_cons_of_pos _ _ (by simp)] at hu
        omega
      have hnk : hasKey rest k1 = false := by
        rw [Bool.eq_false_iff]
        intro hany
        simp only [hasKey, List.any_eq_true] at hany
        obtain ⟨x, hx, hpx⟩ := hany
        exact (List.countP_eq_zero.mp hc x hx) hpx
      simp only [mergeFields]
      rw [lookupField_mergeFields_of_not_hasKey hnk (mergeEntry fa k1 v)]
      cases v with
      | undef => cases hv
      | nul => cases hv
      | obj _ => cases hv
      | boolV b => exact lookupField_setKey_self fa k1 _
      | numV n => exact lookupField_setKey_self fa k1 _
      | strV s => exact lookupField_setKey_self fa k1 _
      | formData es => exact lookupField_setKey_self fa k1 _
    · rw [lookupField, if_neg h1] at hl
      have hu' : rest.countP (fun kv => kv.1 = k) ≤ 1 := by
        rw [List.countP_cons_of_neg _ _ (by simpa using h1)] at hu
        exact hu
      simp only [mergeFields]
      exact ih hl hu' (mergeEntry fa k1 v1)

/-- lookupField_mergeFields_nested evaluates a merge whose source carries
an object for k exactly once while the target also holds an object at k:
the two objects merge key-wise. -/
theorem lookupField_mergeFields_nested
    {fb : List (String × JSValue)} {k : String} {gb : List (String × JSValue)}
    (hl : lookupField fb k = some (.obj gb))
    (hu : fb.countP (fun kv => kv.1 = k) ≤ 1)
    {fa : List (String × JSValue)} {ga : List (String × JSValue)}
    (ha : lookupField fa k = some (.obj ga)) :
    lookupField (mergeFields fa fb) k = some (.obj (mergeFields ga gb)) := by
  induction fb generalizing fa ga with
  | nil => cases hl
  | cons kv rest ih =>
    rcases kv with ⟨k1, v1⟩
    by_cases h1 : k1 = k
    · subst h1
      rw [lookupField, if_pos rfl] at hl
      cases hl
      have hc : rest.countP (fun kv => kv.1 = k1) = 0 := by
        rw [List.countP_cons_of_pos _ _ (by simp)] at hu
        omega
      have hnk : hasKey rest k1 = false := by
        rw [Bool.eq_false_iff]
        intro hany
        simp only [hasKey, List.any_eq_true] at hany
        obtain ⟨x, hx, hpx⟩ := hany
        exact (List.countP_eq_zero.mp hc x hx) hpx
      simp only [mergeFields]
      rw [lookupField_mergeFields_of_not_hasKey hnk (mergeEntry fa k1 (.obj gb))]
      simp only [mergeEntry, ha]
      exact lookupField_setKey_self fa k1 _
    · rw [lookupField, if_neg h1] at hl
      have hu' : rest.countP (fun kv => kv.1 = k) ≤ 1 := by
        rw [List.countP_cons_of_neg _ _ (by simpa using h1)] at hu
        exact hu
      simp only [mergeFields]
      refine ih hl hu' ?_
      rw [lookupField_mergeEntry_ne h1 fa v1]
      exact ha

/-- getField_removeField_self notes that a removed key reads undefined. -/
theorem getField_removeField_self (v : JSValue) (k : String) :
    getField (removeField v k) k = .undef := by
  cases v with
  | obj fs =>
    simp only [removeField, getField]
    have : lookupField (fs.filter (fun kv => kv.1 ≠ k)) k = none := by
      induction fs with
      | nil => rfl
      | cons kv rest ih =>
        by_cases h : kv.1 = k
        · simpa [List.filter, h] using ih
        · simpa [List.filter, h, lookupField] using ih
    rw [this]
    rfl
  | undef => rfl
  | nul => rfl
  | boolV b => rfl
  | numV n => rfl
  | strV s => rfl
  | formData es => rfl

/-- mergeInto_obj evaluates a merge into an object target: the source
contributes exactly its objEntries. -/
theorem mergeInto_obj (fa : List (String × JSValue)) (v : JSValue) :
    mergeInto (.obj fa) v = .obj (mergeFields fa (objEntries v)) := by
  cases v <;> rfl

end JSValue

open JSValue in
/-- withDefaults_eq gives withDefaults in merged-field normal form. -/
theorem withDefaults_eq (env : Env) (optns : JSValue) :
    withDefaults env optns =
      .obj (mergeFields (mergeFields [] (defaultEntries env)) (HttpClient.objEntries optns)) := by
  simp [withDefaults, safeMergeObjects, mergeInto_obj, HttpClient.objEntries]

open JSValue in
/-- getField_normalizeRequest_ne notes that normalizeRequest only writes
the headers, data and responseType fields: every other field of an object
request is preserved. -/
theorem getField_normalizeRequest_ne (rfs : List (String × JSValue))
    (k : String) (h1 : k ≠ "headers") (h2 : k ≠ "data")
    (h3 : k ≠ "responseType") :
    getField (normalizeRequest (.obj rfs)) k = getField (.obj rfs) k := by
  simp only [normalizeRequest, setField, getField]
  rw [lookupField_setKey_ne (Ne.symm h3), lookupField_setKey_ne (Ne.symm h2),
    lookupField_setKey_ne (Ne.symm h1)]

open JSValue in
/-- getField_buildError_code evaluates the code of a built error when the
data spread does not override it. -/
theorem getField_buildError_code {data : JSValue}
    (h : spreadHasKey data "code" = false)
    (c s m d e st : JSValue) :
    getField (buildError c s m d e st data) "code" = c := by
  simp only [buildError, errorLiteral, getField, spreadInto]
  rw [lookupField_foldl_setKey_of_not_hasKey _ _ _ h,
    lookupField_setKey_ne (by decide), lookupField_setKey_ne (by decide),
    lookupField_setKey_ne (by decide), lookupField_setKey_ne (by decide),
    lookupField_setKey_self]
  rfl

open JSValue in
/-- getField_buildError_status evaluates the status of a built error when
the data spread does not override it. -/
theorem getField_buildError_status {data : JSValue}
    (h : spreadHasKey data "status" = false)
    (c s m d e st : JSValue) :
    getField (buildError c s m d e st data) "status" = s := by
  simp only [buildError, errorLiteral, getField, spreadInto]
  rw [lookupField_foldl_setKey_of_not_hasKey _ _ _ h,
    lookupField_setKey_ne (by decide), lookupField_setKey_ne (by decide),
    lookupField_setKey_ne (by decide), lookupField_setKey_self]
  rfl

open JSValue in
/-- getField_buildError_message evaluates the message of a built error when
the data spread does not override it. -/
theorem getField_buildError_message {data : JSValue}
    (h : spreadHasKey data "message" = false)
    (c s m d e st : JSValue) :
    getField (buildError c s m d e st data) "message" = m := by
  simp only [buildError, errorLiteral, getField, spreadInto]
  rw [lookupField_foldl_setKey_of_not_hasKey _ _ _ h,
    lookupField_setKey_ne (by decide), lookupField_setKey_ne (by decide),
    lookupField_setKey_self]
  rfl

open JSValue in
/-- jsOr_truthy_of_right notes that a JavaScript or with a truthy right
operand is truthy. -/
theorem jsOr_truthy_of_right {a b : JSValue} (h : truthy b = true) :
    truthy (jsOr a b) = true := by
  unfold jsOr
  by_cases ha : truthy a = true
  · simp [ha]
  · simpa [ha] using h

open JSValue in
/-- isValue_toFormData notes that a converted FormData always counts as a
value (the instance carries own properties). -/
theorem isValue_toFormData (v : JSValue) : isValue (toFormData v) = true := by
  cases v <;> rfl

open JSValue in
/-- lookupField_errorLiteral_code evaluates the code entry of the error
literal. -/
theorem lookupField_errorLiteral_code (c s m d e st : JSValue) :
    lookupField (errorLiteral c s m d e st) "code" = some c := by
  simp only [errorLiteral]
  rw [lookupField_setKey_ne (by decide), lookupField_setKey_ne (by decide),
    lookupField_setKey_ne (by decide), lookupField_setKey_ne (by decide),
    lookupField_setKey_self]

open JSValue in
/-- lookupField_errorLiteral_status evaluates the status entry of the error
literal. -/
theorem lookupField_errorLiteral_status (c s m d e st : JSValue) :
    lookupField (errorLiteral c s m d e st) "status" = some s := by
  simp only [errorLiteral]
  rw [lookupField_setKey_ne (by decide), lookupField_setKey_ne (by decide),
    lookupField_setKey_ne (by decide), lookupField_setKey_self]

open JSValue in
/-- lookupField_errorLiteral_message evaluates the message entry of the
error literal. -/
theorem lookupField_errorLiteral_message (c s m d e st : JSValue) :
    lookupField (errorLiteral c s m d e st) "message" = some m := by
  simp only [errorLiteral]
  rw [lookupField_setKey_ne (by decide), lookupField_setKey_ne (by decide),
    lookupField_setKey_self]

open JSValue in
/-- lookupField_errorLiteral_description evaluates the description entry of
the error literal. -/
theorem lookupField_errorLiteral_description (c s m d e st : JSValue) :
    lookupField (errorLiteral c s m d e st) "description" = some d := by
  simp only [errorLiteral]
  rw [lookupField_setKey_ne (by decide), lookupField_setKey_self]

open JSValue in
/-- getField_buildError_spread_unique evaluates a built error at a key that
the data spread carries exactly once: the spread value wins. -/
theorem getField_buildError_spread_unique {data : JSValue} {k : String}
    (hk : spreadHasKey data k = true)
    (hu : (spreadEntries data).countP (fun kv => kv.1 = k) ≤ 1)
    (c s m d e st : JSValue) :
    getField (buildError c s m d e st data) k =
      (lookupField (spreadEntries data) k).getD .undef := by
  simp only [buildError, getField, spreadInto]
  rw [lookupField_foldl_setKey_unique _ _ _ hk hu]

open JSValue in
/-- getField_obj_spreadInto_ne_undef notes that when the base binds the key
to a defined value and every spread entry is defined, the key stays
defined after the spread. -/
theorem getField_obj_spreadInto_ne_undef {base : List (String × JSValue)}
    {data : JSValue} {k : String} {w : JSValue}
    (hd : (spreadEntries data).all (fun kv => kv.2 ≠ .undef) = true)
    (hb : lookupField base k = some w) (hw : w ≠ .undef) :
    getField (.obj (spreadInto base data)) k ≠ .undef := by
  rcases lookupField_foldl_setKey_cases (spreadEntries data) base k with h | ⟨v, hv, he⟩
  · simp only [getField, spreadInto]
    rw [h, hb]
    simpa using hw
  · simp only [getField, spreadInto]
    rw [he]
    have := List.all_eq_true.mp hd (k, v) hv
    simpa using this

open JSValue in
/-- countP_key_le_one_of_nodup notes that a field list with distinct keys
carries each key at most once. -/
theorem countP_key_le_one_of_nodup {fs : List (String × JSValue)}
    (h : (fs.map Prod.fst).Nodup) (k : String) :
    fs.countP (fun kv => kv.1 = k) ≤ 1 := by
  induction fs with
  | nil => simp
  | cons kv rest ih =>
    simp only [List.map_cons, List.nodup_cons] at h
    by_cases hk : kv.1 = k
    · rw [List.countP_cons_of_pos _ _ (by simpa using hk)]
      have hz : rest.countP (fun kv => kv.1 = k) = 0 := by
        rw [List.countP_eq_zero]
        intro x hx hpx
        have : x.1 = k := by simpa using hpx
        exact h.1 (by
          rw [← hk] at this
          exact this ▸ List.mem_map_of_mem Prod.fst hx)
      omega
    · rw [List.countP_cons_of_neg _ _ (by simpa using hk)]
      exact ih h.2


open JSValue in
/-- getField_buildError_description evaluates the description of a built
error when the data spread does not override it. -/
theorem getField_buildError_description {data : JSValue}
    (h : spreadHasKey data "description" = false)
    (c s m d e st : JSValue) :
    getField (buildError c s m d e st data) "description" = d := by
  simp only [buildError, errorLiteral, getField, spreadInto]
  rw [lookupField_foldl_setKey_of_not_hasKey _ _ _ h,
    lookupField_setKey_ne (by decide), lookupField_setKey_self]
  rfl

open JSValue in
/-- mapResponseToError_response_branch unfolds the server-response branch
of mapResponseToError. -/
theorem mapResponseToError_response_branch {raw : JSValue}
    (hresp : truthy (getField raw "response") = true) :
    mapResponseToError raw =
      buildError
        (jsOr (getField (getField raw "response") "code") (getField raw "code"))
        (jsOr (getField (getField raw "response") "status") (getField raw "status"))
        (jsOr
          (getField
            (jsOr (getField (getField raw "response") "data")
              (jsOr (getField raw "data") (.obj [])))
            "message")
          (jsOr (getField (getField raw "response") "statusText") (getField raw "message")))
        (jsOr (getField raw "description")
          (jsOr
            (getField
              (jsOr (getField (getField raw "response") "data")
                (jsOr (getField raw "data") (.obj [])))
              "message")
            (jsOr (getField (getField raw "response") "statusText") (getField raw "message"))))
        (jsOr (getField (getField raw "response") "errors")
          (jsOr (getField raw "errors") (.obj [])))
        (jsOr (getField (getField raw "response") "stack")
          (jsOr
            (getField
              (jsOr (getField (getField raw "response") "data")
                (jsOr (getField raw "data") (.obj [])))
              "stack")
            (getField raw "stack")))
        (jsOr (getField (getField raw "response") "data")
          (jsOr (getField raw "data") (.obj []))) := by
  simp only [mapResponseToError]
  rw [if_pos hresp]

open JSValue in
/-- mapResponseToError_request_branch unfolds the no-response branch of
mapResponseToError. -/
theorem mapResponseToError_request_branch {raw : JSValue}
    (hresp : truthy (getField raw "response") = false)
    (hreq : truthy (getField raw "request") = true) :
    mapResponseToError raw =
      buildError
        (jsOr (getField raw "code") (.numV 503))
        (jsOr (getField raw "status") (.numV 503))
        (jsOr (getField raw "message")
          (jsOr (getField raw "description") (.strV "Service Unavailable")))
        (jsOr (getField raw "description") (.strV "Service Unavailable"))
        (getField raw "errors") (getField raw "stack") (getField raw "data") := by
  simp only [mapResponseToError]
  rw [if_neg (by simp [hresp]), if_pos hreq]

open JSValue in
/-- mapResponseToError_setup_branch unfolds the request-setup branch of
mapResponseToError. -/
theorem mapResponseToError_setup_branch {raw : JSValue}
    (hresp : truthy (getField raw "response") = false)
    (hreq : truthy (getField raw "request") = false) :
    mapResponseToError raw =
      buildError
        (jsOr (getField raw "code") (.numV 400))
        (jsOr (getField raw "status") (.numV 400))
        (jsOr (getField raw "message")
          (jsOr (getField raw "description") (.strV "Bad Request")))
        (jsOr (getField raw "description") (.strV "Bad Request"))
        (getField raw "errors") (getField raw "stack") (getField raw "data") := by
  simp only [mapResponseToError]
  rw [if_neg (by simp [hresp]), if_neg (by simp [hreq])]

open JSValue in
/-- lookupField_defaults_headers evaluates the headers entry of the merged
default options. -/
theorem lookupField_defaults_headers (env : Env) :
    lookupField (mergeFields [] (defaultEntries env)) "headers" =
      some (.obj [("Accept", .strV CONTENT_TYPE), ("Content-Type", .strV CONTENT_TYPE)]) := by
  simp only [defaultEntries, mergeFields]
  have h1 : lookupField
      (mergeEntry [] "baseURL" (jsOr env.baseUrlVar env.reactAppBaseUrlVar)) "headers" = none := by
    rw [lookupField_mergeEntry_ne (by decide)]
    rfl
  simp only [mergeEntry, h1]
  exact lookupField_setKey_self _ _ _

/-
Claim theorems.
-/

open JSValue in
/-- C8: withDefaults applied to an empty options object, in an environment
where BASE_URL is set to "https://x/", returns an object whose baseURL is
"https://x/" and whose headers carry Accept and Content-Type both equal to
"application/json". -/
theorem claim_C8_withDefaults_env :
    getField (withDefaults ⟨.strV "https://x/", .undef⟩ (.obj [])) "baseURL" =
        .strV "https://x/" ∧
      getField (getField (withDefaults ⟨.strV "https://x/", .undef⟩ (.obj [])) "headers")
          "Accept" = .strV "application/json" ∧
      getField (getField (withDefaults ⟨.strV "https://x/", .undef⟩ (.obj [])) "headers")
          "Content-Type" = .strV "application/json" := by
  decide

open JSValue in
/-- C5: every body-bearing shortcut (post, put, patch, sendFile) called
with an empty payload returns an immediately rejected promise whose error
message is "Missing Payload", and no request reaches the transport: the
issued-request trace is empty for every transport. -/
theorem claim_C5_missing_payload (env : Env) (transport : Transport)
    (url data optns : JSValue) (h : jsIsEmpty data = true) :
    post env transport url data optns = (.rejected missingPayloadError, []) ∧
      put env transport url data optns = (.rejected missingPayloadError, []) ∧
      patch env transport url data optns = (.rejected missingPayloadError, []) ∧
      sendFile env transport url data optns = (.rejected missingPayloadError, []) ∧
      getField missingPayloadError "message" = .strV "Missing Payload" := by
  refine ⟨?_, ?_, ?_, ?_, by decide⟩ <;> simp [post, put, patch, sendFile, h]

open JSValue in
/-- C5 witness: posting an empty object payload rejects with the Missing
Payload error and issues nothing. -/
theorem claim_C5_missing_payload_witness :
    jsIsEmpty (JSValue.obj []) = true ∧
      post ⟨.undef, .undef⟩ (fun _ => .resolved .undef) (.strV "/users") (.obj [])
          (.obj []) = (.rejected missingPayloadError, []) :=
  ⟨by decide,
    (claim_C5_missing_payload ⟨.undef, .undef⟩ (fun _ => .resolved .undef)
      (.strV "/users") (.obj []) (.obj []) (by decide)).1⟩

open JSValue in
/-- C7: with a transport resolving every request to r, the shortcut verbs
get, post, put, patch and del resolve with the data field of r only, while
head and options resolve with r itself; with a transport rejecting every
request with e, all seven verbs reject with the normalized error of e. -/
theorem claim_C7_shortcut_verbs (env : Env) (url optns data r e : JSValue)
    (h : jsIsEmpty data = false) :
    (get env (fun _ => .resolved r) url optns).1 = .resolved (getField r "data") ∧
      (del env (fun _ => .resolved r) url optns).1 = .resolved (getField r "data") ∧
      (post env (fun _ => .resolved r) url data optns).1 = .resolved (getField r "data") ∧
      (put env (fun _ => .resolved r) url data optns).1 = .resolved (getField r "data") ∧
      (patch env (fun _ => .resolved r) url data optns).1 = .resolved (getField r "data") ∧
      (head env (fun _ => .resolved r) url optns).1 = .resolved r ∧
      (options env (fun _ => .resolved r) url optns).1 = .resolved r ∧
      (get env (fun _ => .rejected e) url optns).1 = .rejected (mapResponseToError e) ∧
      (del env (fun _ => .rejected e) url optns).1 = .rejected (mapResponseToError e) ∧
      (post env (fun _ => .rejected e) url data optns).1 = .rejected (mapResponseToError e) ∧
      (put env (fun _ => .rejected e) url data optns).1 = .rejected (mapResponseToError e) ∧
      (patch env (fun _ => .rejected e) url data optns).1 = .rejected (mapResponseToError e) ∧
      (head env (fun _ => .rejected e) url optns).1 = .rejected (mapResponseToError e) ∧
      (options env (fun _ => .rejected e) url optns).1 = .rejected (mapResponseToError e) := by
  refine ⟨?_, ?_, ?_, ?_, ?_, ?_, ?_, ?_, ?_, ?_, ?_, ?_, ?_, ?_⟩ <;>
    simp [get, del, post, put, patch, head, options, request, wrapRequest,
      mapResponseToData, h]

open JSValue in
/-- C7 witness: a GET against a transport resolving with a response whose
data is "ok" resolves with "ok". -/
theorem claim_C7_shortcut_verbs_witness :
    jsIsEmpty (JSValue.obj [("age", JSValue.numV 14)]) = false ∧
      (get ⟨.undef, .undef⟩ (fun _ => .resolved (.obj [("data", .strV "ok")]))
          (.strV "/u") (.obj [])).1 =
        .resolved (getField (.obj [("data", .strV "ok")]) "data") :=
  ⟨by decide,
    (claim_C7_shortcut_verbs ⟨.undef, .undef⟩ (.strV "/u") (.obj [])
      (.obj [("age", .numV 14)]) (.obj [("data", .strV "ok")]) .undef (by decide)).1⟩

open JSValue in
/-- C1 counterexample: a server response with status 500 whose payload
itself carries a status field yields an error whose status mirrors the
payload, not the response: the fields of response.data are spread onto the
error last and override the mirrored status. -/
theorem claim_C1_counterexample :
    truthy
        (getField
          (getField
            (JSValue.obj
              [("response",
                JSValue.obj
                  [("status", JSValue.numV 500),
                   ("data",
                    JSValue.obj
                      [("status", JSValue.numV 999), ("message", JSValue.strV "m")])])])
            "response")
          "status") = true ∧
      getField
          (mapResponseToError
            (JSValue.obj
              [("response",
                JSValue.obj
                  [("status", JSValue.numV 500),
                   ("data",
                    JSValue.obj
                      [("status", JSValue.numV 999), ("message", JSValue.strV "m")])])]))
          "status" ≠
        getField
          (getField
            (JSValue.obj
              [("response",
                JSValue.obj
                  [("status", JSValue.numV 500),
                   ("data",
                    JSValue.obj
                      [("status", JSValue.numV 999), ("message", JSValue.strV "m")])])])
            "response")
          "status" := by
  decide

open JSValue in
/-- C4 counterexample: a rejection carrying a bare response object maps to
an error whose status, code and description are all undefined: the
server-response branch never applies the 400/503 defaults. -/
theorem claim_C4_counterexample :
    getField (mapResponseToError (JSValue.obj [("response", JSValue.obj [])])) "status" =
        .undef ∧
      getField (mapResponseToError (JSValue.obj [("response", JSValue.obj [])])) "code" =
        .undef ∧
      getField (mapResponseToError (JSValue.obj [("response", JSValue.obj [])]))
          "description" = .undef := by
  decide

open JSValue in
/-- C9 counterexample: withDefaults does not merge shallowly: an options
object supplying only an X-API-Key header does not replace the default
headers object, so the merged headers differ from the caller-supplied
headers value. -/
theorem claim_C9_counterexample :
    getField
        (withDefaults ⟨.undef, .undef⟩
          (.obj [("headers", .obj [("X-API-Key", .strV "k")])]))
        "headers" ≠
      getField (.obj [("headers", .obj [("X-API-Key", .strV "k")])]) "headers" := by
  decide

open JSValue in
/-- C2: a rejection with a request but no response maps to an error with
status 503 and code 503 when the input supplies neither (in any form,
including through its data payload), and its description defaults to
"Service Unavailable". -/
theorem claim_C2_no_response_503 (raw : JSValue)
    (hreq : truthy (getField raw "request") = true)
    (hresp : truthy (getField raw "response") = false)
    (hcode : truthy (getField raw "code") = false)
    (hstatus : truthy (getField raw "status") = false)
    (hdc : spreadHasKey (getField raw "data") "code" = false)
    (hds : spreadHasKey (getField raw "data") "status" = false)
    (hdd : spreadHasKey (getField raw "data") "description" = false) :
    getField (mapResponseToError raw) "status" = .numV 503 ∧
      getField (mapResponseToError raw) "code" = .numV 503 ∧
      (truthy (getField raw "description") = false →
        getField (mapResponseToError raw) "description" = .strV "Service Unavailable") := by
  rw [mapResponseToError_request_branch hresp hreq]
  refine ⟨?_, ?_, fun hd => ?_⟩
  · rw [getField_buildError_status hds]
    simp [jsOr, hstatus]
  · rw [getField_buildError_code hdc]
    simp [jsOr, hcode]
  · rw [getField_buildError_description hdd]
    simp [jsOr, hd]

open JSValue in
/-- C2 witness: a bare request-only rejection maps to a 503 Service
Unavailable error. -/
theorem claim_C2_no_response_503_witness :
    truthy (getField (JSValue.obj [("request", JSValue.obj [])]) "request") = true ∧
      getField (mapResponseToError (JSValue.obj [("request", JSValue.obj [])])) "status" =
        .numV 503 :=
  ⟨by decide,
    (claim_C2_no_response_503 (.obj [("request", .obj [])]) (by decide) (by decide)
      (by decide) (by decide) (by decide) (by decide) (by decide)).1⟩

open JSValue in
/-- C3: a rejection with neither request nor response maps to an error with
status 400 and code 400 when the input supplies neither (in any form,
including through its data payload), and its description defaults to
"Bad Request". -/
theorem claim_C3_setup_400 (raw : JSValue)
    (hreq : truthy (getField raw "request") = false)
    (hresp : truthy (getField raw "response") = false)
    (hcode : truthy (getField raw "code") = false)
    (hstatus : truthy (getField raw "status") = false)
    (hdc : spreadHasKey (getField raw "data") "code" = false)
    (hds : spreadHasKey (getField raw "data") "status" = false)
    (hdd : spreadHasKey (getField raw "data") "description" = false) :
    getField (mapResponseToError raw) "status" = .numV 400 ∧
      getField (mapResponseToError raw) "code" = .numV 400 ∧
      (truthy (getField raw "description") = false →
        getField (mapResponseToError raw) "description" = .strV "Bad Request") := by
  rw [mapResponseToError_setup_branch hresp hreq]
  refine ⟨?_, ?_, fun hd => ?_⟩
  · rw [getField_buildError_status hds]
    simp [jsOr, hstatus]
  · rw [getField_buildError_code hdc]
    simp [jsOr, hcode]
  · rw [getField_buildError_description hdd]
    simp [jsOr, hd]

open JSValue in
/-- C3 witness: a plain Error-like rejection with only a message maps to a
400 Bad Request error. -/
theorem claim_C3_setup_400_witness :
    truthy (getField (JSValue.obj [("message", JSValue.strV "Request Failed")]) "request") =
        false ∧
      getField (mapResponseToError (JSValue.obj [("message", JSValue.strV "Request Failed")]))
          "status" = .numV 400 :=
  ⟨by decide,
    (claim_C3_setup_400 (.obj [("message", .strV "Request Failed")]) (by decide)
      (by decide) (by decide) (by decide) (by decide) (by decide) (by decide)).1⟩

open JSValue in
/-- C1 (amended): for a rejection carrying a response, the error mirrors
response.status and response.code whenever the response carries them
truthily and the effective data payload does not spread an entry for them
(the data entries are spread onto the error last and win); the message
defaults to the server-provided message: the message entry of the
effective data when it carries exactly one, else response.statusText. -/
theorem claim_C1_amended (raw response effData : JSValue)
    (hr : response = getField raw "response")
    (hresp : truthy response = true)
    (heff : effData = jsOr (getField response "data") (jsOr (getField raw "data") (.obj []))) :
    (spreadHasKey effData "status" = false →
        truthy (getField response "status") = true →
        getField (mapResponseToError raw) "status" = getField response "status") ∧
      (spreadHasKey effData "code" = false →
        truthy (getField response "code") = true →
        getField (mapResponseToError raw) "code" = getField response "code") ∧
      (∀ dfs, effData = .obj dfs →
        dfs.countP (fun kv => kv.1 = "message") = 1 →
        getField (mapResponseToError raw) "message" = getField effData "message") ∧
      (spreadHasKey effData "message" = false →
        truthy (getField response "statusText") = true →
        getField (mapResponseToError raw) "message" = getField response "statusText") := by
  subst hr
  subst heff
  rw [mapResponseToError_response_branch hresp]
  refine ⟨fun h1 h2 => ?_, fun h1 h2 => ?_, fun dfs hdf hcount => ?_, fun h1 h2 => ?_⟩
  · rw [getField_buildError_status h1]
    simp [jsOr, h2]
  · rw [getField_buildError_code h1]
    simp [jsOr, h2]
  · rw [hdf]
    have hk : spreadHasKey (JSValue.obj dfs) "message" = true := by
      have hpos : 0 < dfs.countP (fun kv => kv.1 = "message") := by omega
      obtain ⟨x, hx, hpx⟩ := List.countP_pos_iff.mp hpos
      simp only [spreadHasKey, spreadEntries, hasKey, List.any_eq_true]
      exact ⟨x, hx, hpx⟩
    have hu : (spreadEntries (JSValue.obj dfs)).countP (fun kv => kv.1 = "message") ≤ 1 := by
      simp [spreadEntries, hcount]
    rw [getField_buildError_spread_unique hk hu]
    simp [spreadEntries, getField]
  · rw [getField_buildError_message h1]
    rw [getField_eq_undef_of_spreadHasKey_false h1]
    simp [jsOr, h2]
    intro hcontra
    exact absurd hcontra (by decide)

open JSValue in
/-- C1 amended witness: a response rejection with status 500 and no data
payload maps to an error whose status is 500. -/
theorem claim_C1_amended_witness :
    truthy (getField (JSValue.obj [("response", JSValue.obj [("status", JSValue.numV 500)])])
          "response") = true ∧
      getField
          (mapResponseToError
            (JSValue.obj [("response", JSValue.obj [("status", JSValue.numV 500)])]))
          "status" =
        getField (JSValue.obj [("status", JSValue.numV 500)]) "status" :=
  ⟨by decide,
    (claim_C1_amended (.obj [("response", .obj [("status", .numV 500)])])
        (.obj [("status", .numV 500)]) (.obj []) (by decide) (by decide) (by decide)).1
      (by decide) (by decide)⟩

open JSValue in
/-- C4 (amended): for every rejection of the request-setup and no-response
kinds whose data payload does not explicitly spread undefined entries, the
returned error has all four fields status, code, message and description
defined; for the server-response kind the fields mirror response and input
values and can be undefined when neither carries them. -/
theorem claim_C4_amended (raw : JSValue)
    (hresp : truthy (getField raw "response") = false)
    (hdata : (spreadEntries (getField raw "data")).all (fun kv => kv.2 ≠ .undef) = true) :
    getField (mapResponseToError raw) "status" ≠ .undef ∧
      getField (mapResponseToError raw) "code" ≠ .undef ∧
      getField (mapResponseToError raw) "message" ≠ .undef ∧
      getField (mapResponseToError raw) "description" ≠ .undef := by
  by_cases hreq : truthy (getField raw "request") = true
  · rw [mapResponseToError_request_branch hresp hreq]
    refine ⟨?_, ?_, ?_, ?_⟩
    · simp only [buildError]
      exact getField_obj_spreadInto_ne_undef hdata
        (lookupField_errorLiteral_status _ _ _ _ _ _)
        (truthy_ne_undef (jsOr_truthy_of_right (by decide)))
    · simp only [buildError]
      exact getField_obj_spreadInto_ne_undef hdata
        (lookupField_errorLiteral_code _ _ _ _ _ _)
        (truthy_ne_undef (jsOr_truthy_of_right (by decide)))
    · simp only [buildError]
      exact getField_obj_spreadInto_ne_undef hdata
        (lookupField_errorLiteral_message _ _ _ _ _ _)
        (truthy_ne_undef (jsOr_truthy_of_right (jsOr_truthy_of_right (by decide))))
    · simp only [buildError]
      exact getField_obj_spreadInto_ne_undef hdata
        (lookupField_errorLiteral_description _ _ _ _ _ _)
        (truthy_ne_undef (jsOr_truthy_of_right (by decide)))
  · have hreq' : truthy (getField raw "request") = false := by
      simpa using hreq
    rw [mapResponseToError_setup_branch hresp hreq']
    refine ⟨?_, ?_, ?_, ?_⟩
    · simp only [buildError]
      exact getField_obj_spreadInto_ne_undef hdata
        (lookupField_errorLiteral_status _ _ _ _ _ _)
        (truthy_ne_undef (jsOr_truthy_of_right (by decide)))
    · simp only [buildError]
      exact getField_obj_spreadInto_ne_undef hdata
        (lookupField_errorLiteral_code _ _ _ _ _ _)
        (truthy_ne_undef (jsOr_truthy_of_right (by decide)))
    · simp only [buildError]
      exact getField_obj_spreadInto_ne_undef hdata
        (lookupField_errorLiteral_message _ _ _ _ _ _)
        (truthy_ne_undef (jsOr_truthy_of_right (jsOr_truthy_of_right (by decide))))
    · simp only [buildError]
      exact getField_obj_spreadInto_ne_undef hdata
        (lookupField_errorLiteral_description _ _ _ _ _ _)
        (truthy_ne_undef (jsOr_truthy_of_right (by decide)))

open JSValue in
/-- C4 amended witness: a message-only rejection maps to an error whose
status is defined. -/
theorem claim_C4_amended_witness :
    truthy (getField (JSValue.obj [("message", JSValue.strV "x")]) "response") = false ∧
      getField (mapResponseToError (JSValue.obj [("message", JSValue.strV "x")])) "status" ≠
        .undef :=
  ⟨by decide,
    (claim_C4_amended (.obj [("message", .strV "x")]) (by decide) (by decide)).1⟩

open JSValue in
/-- C6: in normalizeRequest, a plain-object payload is converted to a
FormData instance when the multipart flag is truthy or the content-type
header (looked up in lowercase then capitalized casing) starts with
"multipart"; a payload that is already a FormData instance is passed
through unmodified. -/
theorem claim_C6_multipart_normalization (rfs : List (String × JSValue)) :
    (∀ dfs, getField (.obj rfs) "data" = .obj dfs →
        (truthy (destrDefault (getField (.obj rfs) "multipart") (.boolV false)) = true ∨
          strStarts
              (jsToLowerString
                (jsOr
                  (getField (destrDefault (getField (.obj rfs) "headers") (.obj []))
                    "content-type")
                  (getField (destrDefault (getField (.obj rfs) "headers") (.obj []))
                    "Content-Type")))
              "multipart" = true) →
        getField (normalizeRequest (.obj rfs)) "data" = toFormData (.obj dfs)) ∧
      (∀ es, getField (.obj rfs) "data" = .formData es →
        getField (normalizeRequest (.obj rfs)) "data" = .formData es) := by
  constructor
  · intro dfs hdata hcond
    have hd0 : destrDefault (getField (.obj rfs) "data") (.obj []) = .obj dfs := by
      rw [hdata]
      rfl
    have hmp : (truthy (destrDefault (getField (.obj rfs) "multipart") (.boolV false)) ||
        strStarts
            (jsToLowerString
              (jsOr
                (getField (destrDefault (getField (.obj rfs) "headers") (.obj []))
                  "content-type")
                (getField (destrDefault (getField (.obj rfs) "headers") (.obj []))
                  "Content-Type")))
            "multipart" ||
        isFormData (.obj dfs)) = true := by
      rcases hcond with h | h
      · simp [h]
      · simp [h]
    simp only [normalizeRequest]
    rw [hd0, hmp]
    simp only [isFormData, Bool.not_false, Bool.and_true, Bool.true_and, if_true,
      isValue_toFormData, setField, getField]
    rw [lookupField_setKey_ne (by decide), lookupField_setKey_self]
    rfl
  · intro es hdata
    have hd0 : destrDefault (getField (.obj rfs) "data") (.obj []) = .formData es := by
      rw [hdata]
      rfl
    simp only [normalizeRequest]
    rw [hd0]
    simp only [isFormData, Bool.or_true, Bool.not_true, Bool.and_false, if_false,
      isValue, jsIsEmpty, Bool.not_false, setField, getField]
    rw [lookupField_setKey_ne (by decide), lookupField_setKey_self]
    rfl

open JSValue in
/-- C6 witness: a one-field object payload with the multipart flag becomes
FormData, and a FormData payload is preserved untouched. -/
theorem claim_C6_multipart_normalization_witness :
    getField
          (JSValue.obj
            [("data", JSValue.obj [("name", JSValue.strV "n")]),
             ("multipart", JSValue.boolV true)])
          "data" = .obj [("name", JSValue.strV "n")] ∧
      getField
          (normalizeRequest
            (JSValue.obj
              [("data", JSValue.obj [("name", JSValue.strV "n")]),
               ("multipart", JSValue.boolV true)]))
          "data" = toFormData (.obj [("name", JSValue.strV "n")]) :=
  ⟨by decide,
    (claim_C6_multipart_normalization
        [("data", .obj [("name", .strV "n")]), ("multipart", .boolV true)]).1
      [("name", .strV "n")] (by decide) (Or.inl (by decide))⟩

open JSValue in
/-- C9 (amended): withDefaults performs a deep merge in which caller
options win key-wise: any top-level key the caller binds to a scalar or
FormData value overrides the default, nested caller header entries win
over default header entries while defaults absent from the caller headers
are retained, and in mapResponseToError (for the non-response kinds, when
the data payload does not spread those keys) caller-supplied code, status,
description and message take precedence over the built-in defaults. -/
theorem claim_C9_amended :
    (∀ (env : Env) (fs : List (String × JSValue)) (k : String) (v : JSValue),
        (fs.map Prod.fst).Nodup → lookupField fs k = some v → isOverriding v = true →
        getField (withDefaults env (.obj fs)) k = v) ∧
      (∀ (env : Env) (fs hs : List (String × JSValue)) (k : String) (v : JSValue),
        (fs.map Prod.fst).Nodup → (hs.map Prod.fst).Nodup →
        lookupField fs "headers" = some (.obj hs) →
        lookupField hs k = some v → isOverriding v = true →
        getField (getField (withDefaults env (.obj fs)) "headers") k = v) ∧
      (∀ (env : Env) (fs hs : List (String × JSValue)),
        (fs.map Prod.fst).Nodup →
        lookupField fs "headers" = some (.obj hs) →
        hasKey hs "Accept" = false →
        getField (getField (withDefaults env (.obj fs)) "headers") "Accept" =
          .strV CONTENT_TYPE) ∧
      (∀ raw : JSValue,
        truthy (getField raw "response") = false →
        spreadHasKey (getField raw "data") "code" = false →
        spreadHasKey (getField raw "data") "status" = false →
        spreadHasKey (getField raw "data") "description" = false →
        spreadHasKey (getField raw "data") "message" = false →
        (truthy (getField raw "code") = true →
          getField (mapResponseToError raw) "code" = getField raw "code") ∧
          (truthy (getField raw "status") = true →
            getField (mapResponseToError raw) "status" = getField raw "status") ∧
          (truthy (getField raw "description") = true →
            getField (mapResponseToError raw) "description" = getField raw "description") ∧
          (truthy (getField raw "message") = true →
            getField (mapResponseToError raw) "message" = getField raw "message")) := by
  refine ⟨?_, ?_, ?_, ?_⟩
  · intro env fs k v hnd hl hv
    rw [withDefaults_eq]
    simp only [objEntries, getField]
    rw [lookupField_mergeFields_overriding hl (countP_key_le_one_of_nodup hnd k) hv]
    rfl
  · intro env fs hs k v hnd hnh hlh hl hv
    rw [withDefaults_eq]
    simp only [objEntries, getField]
    rw [lookupField_mergeFields_nested hlh (countP_key_le_one_of_nodup hnd "headers")
      (lookupField_defaults_headers env)]
    simp only [Option.getD_some, getField]
    rw [lookupField_mergeFields_overriding hl (countP_key_le_one_of_nodup hnh k) hv]
    rfl
  · intro env fs hs hnd hlh hna
    rw [withDefaults_eq]
    simp only [objEntries, getField]
    rw [lookupField_mergeFields_nested hlh (countP_key_le_one_of_nodup hnd "headers")
      (lookupField_defaults_headers env)]
    simp only [Option.getD_some, getField]
    rw [lookupField_mergeFields_of_not_hasKey hna]
    rfl
  · intro raw hresp hdc hds hdd hdm
    by_cases hreq : truthy (getField raw "request") = true
    · rw [mapResponseToError_request_branch hresp hreq]
      refine ⟨fun h => ?_, fun h => ?_, fun h => ?_, fun h => ?_⟩
      · rw [getField_buildError_code hdc]
        simp [jsOr, h]
      · rw [getField_buildError_status hds]
        simp [jsOr, h]
      · rw [getField_buildError_description hdd]
        simp [jsOr, h]
      · rw [getField_buildError_message hdm]
        simp [jsOr, h]
    · have hreq' : truthy (getField raw "request") = false := by
        simpa using hreq
      rw [mapResponseToError_setup_branch hresp hreq']
      refine ⟨fun h => ?_, fun h => ?_, fun h => ?_, fun h => ?_⟩
      · rw [getField_buildError_code hdc]
        simp [jsOr, h]
      · rw [getField_buildError_status hds]
        simp [jsOr, h]
      · rw [getField_buildError_description hdd]
        simp [jsOr, h]
      · rw [getField_buildError_message hdm]
        simp [jsOr, h]

open JSValue in
/-- C9 amended witness: a caller-supplied baseURL wins over the default. -/
theorem claim_C9_amended_witness :
    lookupField [("baseURL", JSValue.strV "https://b/")] "baseURL" =
        some (JSValue.strV "https://b/") ∧
      getField
          (withDefaults ⟨.strV "https://a/", .undef⟩
            (.obj [("baseURL", .strV "https://b/")]))
          "baseURL" = .strV "https://b/" :=
  ⟨by decide,
    claim_C9_amended.1 ⟨.strV "https://a/", .undef⟩ [("baseURL", .strV "https://b/")]
      "baseURL" (.strV "https://b/") (by decide) (by decide) (by decide)⟩

open JSValue in
/-- C10: the client handle is a lazily created singleton: the first call
creates the client from the merged options with baseURL omitted, every
later call returns the identical client ignoring freshly supplied options,
disposeHttpClient returns null and resets the handle so the next call
creates a fresh client; the created client options never carry a baseURL
even when one is configured, while request hands the transport the
normalized merged options that still carry the merged baseURL. -/
theorem claim_C10_singleton_client (env : Env) (now now2 : Nat)
    (optns optns2 : JSValue) (c : HttpClientInstance) (st : ClientState)
    (transport : Transport) (u : String) (hu : u ≠ "") :
    createHttpClient env now optns none =
        (⟨removeField (withDefaults env optns) "baseURL", now⟩,
          some ⟨removeField (withDefaults env optns) "baseURL", now⟩) ∧
      createHttpClient env now2 optns2 (some c) = (c, some c) ∧
      disposeHttpClient st = (none, none) ∧
      createHttpClient env now2 optns2 (disposeHttpClient st).2 =
        createHttpClient env now2 optns2 none ∧
      getField (createHttpClient env now optns none).1.clientOptions "baseURL" = .undef ∧
      (request env transport optns).2 = [normalizeRequest (withDefaults env optns)] ∧
      getField (normalizeRequest (withDefaults env optns)) "baseURL" =
        getField (withDefaults env optns) "baseURL" ∧
      getField (withDefaults ⟨.strV u, .undef⟩ (.obj [])) "baseURL" = .strV u := by
  refine ⟨rfl, rfl, rfl, rfl, ?_, rfl, ?_, ?_⟩
  · simp only [createHttpClient]
    exact getField_removeField_self _ _
  · rw [withDefaults_eq]
    exact getField_normalizeRequest_ne _ _ (by decide) (by decide) (by decide)
  · rw [withDefaults_eq]
    simp only [objEntries, defaultEntries, mergeFields, mergeEntry]
    have ht : truthy (JSValue.strV u) = true := by
      simp only [truthy, bne_iff_ne, ne_eq]
      exact hu
    simp [jsOr, ht, lookupField, setKey, getField]

open JSValue in
/-- C10 witness: with BASE_URL configured, the merged request options carry
it. -/
theorem claim_C10_singleton_client_witness :
    ("https://x/" : String) ≠ "" ∧
      getField (withDefaults ⟨.strV "https://x/", .undef⟩ (.obj [])) "baseURL" =
        .strV "https://x/" :=
  ⟨by decide,
    (claim_C10_singleton_client ⟨.strV "https://x/", .undef⟩ 0 0 (.obj []) (.obj [])
        ⟨.obj [], 0⟩ none (fun _ => .resolved .undef) "https://x/"
        (by decide)).2.2.2.2.2.2.2⟩

end HttpClient
